import Mathlib

set_option linter.unusedVariables false

namespace Arduinors

/-!
Shallow embedding of the `arduinors` crate.

The embedded sources are `src/arduino/mod.rs`, `src/arduino/board.rs`,
`src/cli/query.rs`, `src/cli/info.rs`, `src/cli/board.rs` and `src/cli/run.rs`.
Rust panics are modelled explicitly (`Option`/`Except`/a dedicated
`StepResult.panicked` constructor), machine integers as `Int`/`Nat` with the
overflow and cast behaviour spelled out, and the external collaborators
(the firmata transport, the filesystem and the `arduino-cli` process) as
explicit parameters recording what was asked of them.
-/

/-- The mode of a pin on an Arduino: `arduino::PinMode` from `src/arduino/mod.rs`,
with raw discriminants `0x0` to `0xB`. -/
inductive PinMode where
  | DigitalInput
  | DigitalOutput
  | AnalogInput
  | Pwm
  | Servo
  | Shift
  | I2c
  | OneWire
  | Stepper
  | Encoder
  | Serial
  | InputPullup
deriving DecidableEq, Repr

/-- The discriminant of a pin mode (Rust `mode as u8`). -/
def PinMode.toRaw : PinMode → Nat
  | .DigitalInput  => 0x0
  | .DigitalOutput => 0x1
  | .AnalogInput   => 0x2
  | .Pwm           => 0x3
  | .Servo         => 0x4
  | .Shift         => 0x5
  | .I2c           => 0x6
  | .OneWire       => 0x7
  | .Stepper       => 0x8
  | .Encoder       => 0x9
  | .Serial        => 0xA
  | .InputPullup   => 0xB

/-- Rust `PinMode::from(value)`. The Rust function panics on an unrecognized raw
value; `none` models that panic. -/
def PinMode.fromRaw : Nat → Option PinMode
  | 0x0 => some .DigitalInput
  | 0x1 => some .DigitalOutput
  | 0x2 => some .AnalogInput
  | 0x3 => some .Pwm
  | 0x4 => some .Servo
  | 0x5 => some .Shift
  | 0x6 => some .I2c
  | 0x7 => some .OneWire
  | 0x8 => some .Stepper
  | 0x9 => some .Encoder
  | 0xA => some .Serial
  | 0xB => some .InputPullup
  | _   => none

/-- One element of `firmata::Pin::modes`: a supported `(mode, resolution)` pair.
Both fields are `u8` in the firmata crate, modelled as `Nat`. -/
structure FirmataModeEntry where
  mode : Nat
  resolution : Nat
deriving DecidableEq, Repr

/-- A transport-level pin descriptor, as exposed by `firmata::Pin`:
whether the pin is analog, its raw active mode, and its supported mode list. -/
structure FirmataPin where
  analog : Bool
  mode : Nat
  modes : List FirmataModeEntry
deriving DecidableEq, Repr

/-- `arduino::DigitalPin` from `src/arduino/mod.rs`. `bit_resolution` is a `u8`
in the source, modelled as `Nat`. -/
structure DigitalPin where
  mode : PinMode
  bit_resolution : Nat
  valid_modes : List PinMode
deriving DecidableEq, Repr

/-- The largest `i32` value. -/
def i32Max : Int := 2147483647

/-- Rust `2i32.pow(r)`. The Rust exponentiation is performed in `i32`, so it
overflows (a panic, modelled as `none`) as soon as `2^r` exceeds `i32::MAX`. -/
def pow2i32 (r : Nat) : Option Int :=
  if (2 : Int) ^ r ≤ i32Max then some ((2 : Int) ^ r) else none

/-- `DigitalPin::valid_values` from `src/arduino/mod.rs`: the half-open range
`0..(2i32.pow(bit_resolution))`, represented as its two bounds. `none` models
the overflow panic of the `i32` exponentiation. -/
def DigitalPin.valid_values (pin : DigitalPin) : Option (Int × Int) :=
  (pow2i32 pin.bit_resolution).map (fun hi => ((0 : Int), hi))

/-- Membership test of Rust's `Range<i32>::contains` on a half-open range. -/
def rangeContains (r : Int × Int) (v : Int) : Bool :=
  r.1 ≤ v && v < r.2

/-- The distinct panic sites of `DigitalPin::from_digital` and `PinMode::from`. -/
inductive PanicKind where
  | invalidModeCode
  | inconsistentPin
  | missingResolution
deriving DecidableEq, Repr

/-- The loop body of `DigitalPin::from_digital`: walks the supported-mode list,
accumulating converted modes and at most one resolution for the active mode.
A second entry matching the active raw mode while a resolution is already
recorded is the `inconsistentPin` panic; an unconvertible raw mode code is the
`invalidModeCode` panic of `PinMode::from`. -/
def fromDigitalLoop (activeCode : Nat) :
    List FirmataModeEntry → List PinMode → Option Nat →
    Except PanicKind (List PinMode × Option Nat)
  | [], acc, res => .ok (acc, res)
  | e :: rest, acc, res =>
    if e.mode = activeCode then
      match res with
      | none =>
        match PinMode.fromRaw e.mode with
        | some m => fromDigitalLoop activeCode rest (acc ++ [m]) (some e.resolution)
        | none => .error .invalidModeCode
      | some _ => .error .inconsistentPin
    else
      match PinMode.fromRaw e.mode with
      | some m => fromDigitalLoop activeCode rest (acc ++ [m]) res
      | none => .error .invalidModeCode

/-- `DigitalPin::from_digital` from `src/arduino/mod.rs`. An `Except.error`
models the corresponding Rust panic. -/
def DigitalPin.from_digital (p : FirmataPin) : Except PanicKind DigitalPin :=
  match PinMode.fromRaw p.mode with
  | none => .error .invalidModeCode
  | some mode =>
    match fromDigitalLoop p.mode p.modes [] none with
    | .error k => .error k
    | .ok (valid_modes, res) =>
      match (if valid_modes.isEmpty then some 0 else res) with
      | some r => .ok { mode := mode, bit_resolution := r, valid_modes := valid_modes }
      | none => .error .missingResolution

/-- `arduino::board::Error` from `src/arduino/board.rs`. -/
inductive Error where
  | InvalidPinIndex
  | ValueOutOfBounds
  | InvalidMode
  | Unimplemented
deriving DecidableEq, Repr

/-- The firmata transport boundary, an external collaborator: a state type `T`
with the primitives `src/arduino/board.rs` invokes on `firmata::Board`. -/
structure Transport (T : Type) where
  pins : T → List FirmataPin
  digital_write : T → Int → Int → T
  analog_write : T → Int → Int → T
  set_pin_mode : T → Int → Nat → T

/-- `arduino::Arduino` from `src/arduino/board.rs`: a transport state plus the
current collection of digital-pin snapshots. -/
structure Arduino (T : Type) where
  board : T
  digital_pins : List DigitalPin
deriving DecidableEq

/-- `Arduino::digital_pins_for_board`: converts every non-analog transport pin
with `DigitalPin::from_digital`, in transport order. The mpsc/crossbeam chain
in the source joins each worker before spawning the next, so it is observably
this sequential conversion; a panic in any conversion propagates. -/
def Arduino.digital_pins_for_board {T : Type} (tr : Transport T) (b : T) :
    Except PanicKind (List DigitalPin) :=
  ((tr.pins b).filter (fun p => !p.analog)).mapM DigitalPin.from_digital

/-- The outcome of running one `&mut self` operation: a panic, an error with
the (unchanged) receiver, or success with the updated receiver. -/
inductive StepResult (σ : Type) where
  | panicked
  | err (e : Error) (s : σ)
  | ok (s : σ)
deriving DecidableEq

/-- Rust's `pin_index as usize` for an `i32` on a 64-bit target: the value is
sign-extended and reinterpreted, i.e. reduced modulo `2^64`. -/
def i32AsUsize (i : Int) : Nat :=
  (i % (2 : Int) ^ 64).toNat

/-- The tail every successful dispatch in `write`/`set_pin_mode` shares:
rebuild the snapshot collection from the post-dispatch transport state and
return `Ok(())`; a rebuild panic propagates. -/
def afterDispatch {T : Type} (tr : Transport T) (b : T) : StepResult (Arduino T) :=
  match Arduino.digital_pins_for_board tr b with
  | .ok pins => .ok { board := b, digital_pins := pins }
  | .error _ => .panicked

/-- `Arduino::write` from `src/arduino/board.rs`. -/
def Arduino.write {T : Type} (tr : Transport T) (a : Arduino T)
    (pin_index value : Int) : StepResult (Arduino T) :=
  match a.digital_pins.get? (i32AsUsize pin_index) with
  | some pin =>
    match pin.valid_values with
    | none => .panicked
    | some range =>
      if rangeContains range value then
        match pin.mode with
        | .DigitalOutput => afterDispatch tr (tr.digital_write a.board pin_index value)
        | .Pwm => afterDispatch tr (tr.analog_write a.board pin_index value)
        | _ => .err .Unimplemented a
      else
        .err .ValueOutOfBounds a
  | none => .err .InvalidPinIndex a

/-- `Arduino::set_pin_mode` from `src/arduino/board.rs`. -/
def Arduino.set_pin_mode {T : Type} (tr : Transport T) (a : Arduino T)
    (pin_index : Int) (mode : PinMode) : StepResult (Arduino T) :=
  match a.digital_pins.get? (i32AsUsize pin_index) with
  | some pin =>
    if pin.valid_modes.contains mode then
      afterDispatch tr (tr.set_pin_mode a.board pin_index mode.toRaw)
    else
      .err .InvalidMode a
  | none => .err .InvalidPinIndex a

/-- A transport over the trivial state, used to instantiate theorems at
concrete inputs: it reports no pins and ignores all writes. -/
def trivialTransport : Transport Unit where
  pins := fun _ => []
  digital_write := fun b _ _ => b
  analog_write := fun b _ _ => b
  set_pin_mode := fun b _ _ => b

namespace Cli

/-!
Embedding of the `cli` module. Rust string slices are modelled as `List Char`
so that every text operation is structurally recursive and kernel-computable.
-/

/-- The error type of the `cli` module, with every variant the embedded files
construct (`src/cli/mod.rs` plus the variants used by `query.rs`, `info.rs`,
`board.rs` and `run.rs`). -/
inductive Error where
  | CommandFailure
  | UnexpectedSyntax
  | NoDevice
  | MultipleDevices
  | MissingCore
  | UnknownFormat
  | InvalidSketchPath
deriving DecidableEq, Repr

/-- `cli::Query` from `src/cli/query.rs`, with its discriminants. -/
inductive Query where
  | Fqbn
  | Port
  | Id
  | BoardName
deriving DecidableEq, Repr

/-- The discriminant of a query (Rust `query as usize`), i.e. the column it
selects in a board entry. -/
def Query.column : Query → Nat
  | .Fqbn => 0
  | .Port => 1
  | .Id => 2
  | .BoardName => 3

/-- Unicode white-space, the character class matched by the regex `\s` (and
removed by Rust's `str::trim`). -/
def isRustWhitespaceChar (c : Char) : Bool :=
  c.toNat = 0x09 || c.toNat = 0x0A || c.toNat = 0x0B || c.toNat = 0x0C ||
  c.toNat = 0x0D || c.toNat = 0x20 || c.toNat = 0x85 || c.toNat = 0xA0 ||
  c.toNat = 0x1680 || (0x2000 ≤ c.toNat && c.toNat ≤ 0x200A) ||
  c.toNat = 0x2028 || c.toNat = 0x2029 || c.toNat = 0x202F ||
  c.toNat = 0x205F || c.toNat = 0x3000

/-- Whether a line matches the `^\s*$` regex of `query_from_board_list`
(equivalently, whether `trim` leaves it empty). -/
def isBlankLine (s : List Char) : Bool :=
  s.all isRustWhitespaceChar

/-- Rust `str::split(c)`: splits at every occurrence of `c`, keeping empty
pieces, so the result always has one more piece than there are separators. -/
def splitOnChar (c : Char) : List Char → List (List Char)
  | [] => [[]]
  | x :: rest =>
    if x = c then
      [] :: splitOnChar c rest
    else
      match splitOnChar c rest with
      | [] => [[x]]
      | g :: gs => (x :: g) :: gs

/-- Removes one trailing carriage return, as Rust's `str::lines` does on every
newline-terminated line. -/
def stripCR (l : List Char) : List Char :=
  if l.getLast? = some '\r' then l.dropLast else l

/-- Rust `str::lines`: pieces between newlines, one trailing carriage return
removed from every newline-terminated piece, and no final empty piece when the
text ends with a newline. -/
def rustLines (s : List Char) : List (List Char) :=
  let parts := splitOnChar '\n' s
  let terminated := (parts.dropLast).map stripCR
  match parts.getLast? with
  | some [] => terminated
  | some l => terminated ++ [l]
  | none => []

/-- `cli::query::query_from_board_entry` from `src/cli/query.rs`. -/
def query_from_board_entry (q : Query) (board_entry : List Char) :
    Except Error (List Char) :=
  let fields := splitOnChar '\t' board_entry
  if fields.length ≠ 4 then
    .error .UnexpectedSyntax
  else if isBlankLine (fields.getD 0 []) then
    .error .MissingCore
  else
    .ok (fields.getD q.column [])

/-- The candidate-collecting loop of `query_from_board_list`: walks the data
lines, records the first non-blank line and fails as soon as a second one
appears. -/
def findBoardEntry : List (List Char) → Option (List Char) →
    Except Error (Option (List Char))
  | [], acc => .ok acc
  | l :: rest, acc =>
    if !isBlankLine l then
      match acc with
      | none => findBoardEntry rest (some l)
      | some _ => .error .MultipleDevices
    else
      findBoardEntry rest acc

/-- `cli::query::query_from_board_list` from `src/cli/query.rs`: skip the
header line, find the unique non-blank candidate line, and extract the query
column from it. -/
def query_from_board_list (q : Query) (board_list : List Char) :
    Except Error (List Char) :=
  match findBoardEntry ((rustLines board_list).drop 1) none with
  | .error e => .error e
  | .ok none => .error .NoDevice
  | .ok (some board_entry) => query_from_board_entry q board_entry

/-- The non-blank data lines of a listing (everything after the header line
that the `^\s*$` regex does not match): the candidate device entries. -/
def candidateLines (board_list : List Char) : List (List Char) :=
  ((rustLines board_list).drop 1).filter (fun l => !isBlankLine l)

/-- A JSON value, the document model of `serde_json`. -/
inductive Json where
  | null
  | bool (b : Bool)
  | num (n : Int)
  | str (s : String)
  | arr (xs : List Json)
  | obj (kvs : List (String × Json))

/-- Looks up a known field of a struct during serde map deserialization: the
field must occur exactly once (zero occurrences are the missing-field error,
two or more the duplicate-field error); unrelated keys are ignored, matching
serde's default of tolerating unknown fields. -/
def getField (kvs : List (String × Json)) (fieldName : String) : Option Json :=
  match kvs.filter (fun kv => kv.1 = fieldName) with
  | [kv] => some kv.2
  | _ => none

/-- Deserializing a Rust `String` field: only a JSON string is accepted. -/
def Json.asString : Json → Option String
  | .str s => some s
  | _ => none

/-- `cli::board::Board` from `src/cli/board.rs`. -/
structure Board where
  name : String
  fqbn : String
  port : String
  usbID : String
deriving DecidableEq, Repr

/-- `cli::info::DeviceInfo` from `src/cli/info.rs`. -/
structure DeviceInfo where
  name : String
  fqbn : String
  port : String
  usbID : String
deriving DecidableEq, Repr

/-- The derived serde deserializer shared by `Board` and `DeviceInfo`: a JSON
object with the four string fields `name`, `fqbn`, `port`, `usbID` (in any
order, unknown fields ignored, duplicates rejected), or serde's sequence form,
a four-element JSON array in declaration order. -/
def decodeRecordFields : Json → Option (String × String × String × String)
  | .obj kvs => do
    let n ← Json.asString (← getField kvs "name")
    let f ← Json.asString (← getField kvs "fqbn")
    let p ← Json.asString (← getField kvs "port")
    let u ← Json.asString (← getField kvs "usbID")
    some (n, f, p, u)
  | .arr [jn, jf, jp, ju] => do
    let n ← Json.asString jn
    let f ← Json.asString jf
    let p ← Json.asString jp
    let u ← Json.asString ju
    some (n, f, p, u)
  | _ => none

/-- Deserializes one `Board`. -/
def decodeBoard (j : Json) : Option Board :=
  (decodeRecordFields j).map (fun t => ⟨t.1, t.2.1, t.2.2.1, t.2.2.2⟩)

/-- Deserializes one `DeviceInfo`. -/
def decodeDeviceInfo (j : Json) : Option DeviceInfo :=
  (decodeRecordFields j).map (fun t => ⟨t.1, t.2.1, t.2.2.1, t.2.2.2⟩)

/-- Deserializing a `Vec`: a JSON array whose every element deserializes. -/
def decodeArr {α : Type} (f : Json → Option α) : Json → Option (List α)
  | .arr xs => xs.mapM f
  | _ => none

/-- `cli::board::BoardList` from `src/cli/board.rs`. -/
structure BoardList where
  serialBoards : List Board
  networkBoards : List Board
deriving DecidableEq, Repr

/-- `cli::info::BoardList` from `src/cli/info.rs` (the same wrapper, holding
`DeviceInfo` records). -/
structure InfoBoardList where
  serialBoards : List DeviceInfo
  networkBoards : List DeviceInfo
deriving DecidableEq, Repr

/-- The derived serde deserializer of `cli::board::BoardList`. -/
def decodeBoardList : Json → Option BoardList
  | .obj kvs => do
    let s ← decodeArr decodeBoard (← getField kvs "serialBoards")
    let n ← decodeArr decodeBoard (← getField kvs "networkBoards")
    some ⟨s, n⟩
  | .arr [js, jn] => do
    let s ← decodeArr decodeBoard js
    let n ← decodeArr decodeBoard jn
    some ⟨s, n⟩
  | _ => none

/-- The derived serde deserializer of `cli::info::BoardList`. -/
def decodeInfoBoardList : Json → Option InfoBoardList
  | .obj kvs => do
    let s ← decodeArr decodeDeviceInfo (← getField kvs "serialBoards")
    let n ← decodeArr decodeDeviceInfo (← getField kvs "networkBoards")
    some ⟨s, n⟩
  | .arr [js, jn] => do
    let s ← decodeArr decodeDeviceInfo js
    let n ← decodeArr decodeDeviceInfo jn
    some ⟨s, n⟩
  | _ => none

/-- The derived serde serializer of `Board`: an object with the fields in
declaration order. -/
def encodeBoard (b : Board) : Json :=
  .obj [("name", .str b.name), ("fqbn", .str b.fqbn),
        ("port", .str b.port), ("usbID", .str b.usbID)]

/-- The derived serde serializer of `DeviceInfo`. -/
def encodeDeviceInfo (d : DeviceInfo) : Json :=
  .obj [("name", .str d.name), ("fqbn", .str d.fqbn),
        ("port", .str d.port), ("usbID", .str d.usbID)]

/-- The derived serde serializer of `cli::board::BoardList`. -/
def encodeBoardList (bl : BoardList) : Json :=
  .obj [("serialBoards", .arr (bl.serialBoards.map encodeBoard)),
        ("networkBoards", .arr (bl.networkBoards.map encodeBoard))]

/-- The derived serde serializer of `cli::info::BoardList`. -/
def encodeInfoBoardList (bl : InfoBoardList) : Json :=
  .obj [("serialBoards", .arr (bl.serialBoards.map encodeDeviceInfo)),
        ("networkBoards", .arr (bl.networkBoards.map encodeDeviceInfo))]

/-- `cli::board::boards_from_list` from `src/cli/board.rs`. The input models
the result of the text-level JSON parse inside `serde_json::from_str`: `none`
stands for input that is not syntactically valid JSON (for example empty
input), `some j` for text parsing to the document `j`. Either kind of
deserialization failure becomes `UnknownFormat`. -/
def boards_from_list (input : Option Json) : Except Error (List Board) :=
  match input with
  | none => .error .UnknownFormat
  | some j =>
    match decodeBoardList j with
    | some bl => .ok bl.serialBoards
    | none => .error .UnknownFormat

/-- `cli::info::device_infos_from_board_list` from `src/cli/info.rs`, with the
input modelled as in `boards_from_list`. -/
def device_infos_from_board_list (input : Option Json) :
    Except Error (List DeviceInfo) :=
  match input with
  | none => .error .UnknownFormat
  | some j =>
    match decodeInfoBoardList j with
    | some bl => .ok bl.serialBoards
    | none => .error .UnknownFormat

/-- `DeviceInfo::UNKNOWN_BOARD_NAME` from `src/cli/info.rs`. -/
def DeviceInfo.unknownBoardName : String := "unknown"

/-- `DeviceInfo::UNKNOWN_BOARD_FQBN` from `src/cli/info.rs`. -/
def DeviceInfo.unknownBoardFqbn : String := ""

/-- `DeviceInfo::has_unknown_core` from `src/cli/info.rs`. -/
def DeviceInfo.has_unknown_core (d : DeviceInfo) : Bool :=
  d.name == DeviceInfo.unknownBoardName && d.fqbn == DeviceInfo.unknownBoardFqbn

/-- An observable interaction of `compile`/`upload` with the outside world:
the filesystem walk of `sketch_to_string`, or one external process run with
its full argument list. -/
inductive Event where
  | validateSketch (sketch : String)
  | runProcess (args : List String)
deriving DecidableEq, Repr

/-- The external collaborators of `src/cli/run.rs`: the filesystem behaviour
of `sketch_to_string` (whose only error is `InvalidSketchPath`, so `none`
models that error and `some path` the canonicalized path), and the exit
behaviour of an `arduino-cli` invocation (`none` models a spawn failure,
`some b` an exit with success flag `b`). -/
structure SysEnv where
  sketch_to_string : String → Option String
  runStatus : List String → Option Bool

/-- `cli::run::compile` from `src/cli/run.rs`, returning its result together
with the list of external interactions it performed, in order. -/
def compile (env : SysEnv) (sketch : String) (device_info : DeviceInfo) :
    Except Error Unit × List Event :=
  if device_info.has_unknown_core then
    (.error .CommandFailure, [])
  else
    match env.sketch_to_string sketch with
    | none => (.error .InvalidSketchPath, [.validateSketch sketch])
    | some path =>
      let args := ["compile", "--fqbn", device_info.fqbn, path]
      match env.runStatus args with
      | some true => (.ok (), [.validateSketch sketch, .runProcess args])
      | _ => (.error .CommandFailure, [.validateSketch sketch, .runProcess args])

/-- `cli::run::upload` from `src/cli/run.rs`, instrumented like `compile`. -/
def upload (env : SysEnv) (sketch : String) (device_info : DeviceInfo) :
    Except Error Unit × List Event :=
  if device_info.has_unknown_core then
    (.error .CommandFailure, [])
  else
    match env.sketch_to_string sketch with
    | none => (.error .InvalidSketchPath, [.validateSketch sketch])
    | some path =>
      let args := ["upload", "--port", device_info.port, "--fqbn", device_info.fqbn, path]
      match env.runStatus args with
      | some true => (.ok (), [.validateSketch sketch, .runProcess args])
      | _ => (.error .CommandFailure, [.validateSketch sketch, .runProcess args])

end Cli

instance {ε α : Type} [DecidableEq ε] [DecidableEq α] : DecidableEq (Except ε α) :=
  fun x y =>
  match x, y with
  | .error a, .error b =>
    if h : a = b then .isTrue (by rw [h])
    else .isFalse (fun hc => by cases hc; exact h rfl)
  | .ok a, .ok b =>
    if h : a = b then .isTrue (by rw [h])
    else .isFalse (fun hc => by cases hc; exact h rfl)
  | .error a, .ok b => .isFalse (fun hc => Except.noConfusion hc)
  | .ok a, .error b => .isFalse (fun hc => Except.noConfusion hc)

/-! ### Lemmas about `DigitalPin.from_digital` -/

lemma fromDigitalLoop_clean (active : Nat) (xs : List FirmataModeEntry) :
    ∀ (rest : List FirmataModeEntry) (acc : List PinMode) (res : Option Nat),
    (∀ x ∈ xs, x.mode ≠ active) →
    (∀ x ∈ xs, (PinMode.fromRaw x.mode).isSome) →
    ∃ ms, fromDigitalLoop active (xs ++ rest) acc res =
            fromDigitalLoop active rest (acc ++ ms) res ∧
          ms.map some = xs.map (fun x => PinMode.fromRaw x.mode) := by
  induction xs with
  | nil =>
    intro rest acc res _ _
    exact ⟨[], by simp, by simp⟩
  | cons x xs ih =>
    intro rest acc res hne hv
    have hx : ¬ (x.mode = active) := hne x (by simp)
    obtain ⟨m, hm⟩ := Option.isSome_iff_exists.mp (hv x (by simp))
    obtain ⟨ms, h1, h2⟩ :=
      ih rest (acc ++ [m]) res (fun y hy => hne y (by simp [hy]))
        (fun y hy => hv y (by simp [hy]))
    refine ⟨m :: ms, ?_, ?_⟩
    · rw [List.cons_append]
      show fromDigitalLoop active (x :: (xs ++ rest)) acc res = _
      simp only [fromDigitalLoop, hx, if_false, hm]
      rw [h1, List.append_assoc]
      rfl
    · simp [h2, hm]

lemma fromDigitalLoop_step_active_none (active : Nat) (e : FirmataModeEntry)
    (rest : List FirmataModeEntry) (acc : List PinMode) (m : PinMode)
    (he : e.mode = active) (hm : PinMode.fromRaw active = some m) :
    fromDigitalLoop active (e :: rest) acc none =
      fromDigitalLoop active rest (acc ++ [m]) (some e.resolution) := by
  simp only [fromDigitalLoop, he, if_true, hm]

lemma fromDigitalLoop_step_active_some (active : Nat) (e : FirmataModeEntry)
    (rest : List FirmataModeEntry) (acc : List PinMode) (r : Nat)
    (he : e.mode = active) :
    fromDigitalLoop active (e :: rest) acc (some r) = .error .inconsistentPin := by
  simp only [fromDigitalLoop, he, if_true]

lemma fromDigitalLoop_count_zero (active : Nat) :
    ∀ (l : List FirmataModeEntry) (acc : List PinMode) (res : Option Nat),
    l.countP (fun x => decide (x.mode = active)) = 0 →
    fromDigitalLoop active l acc res ≠ .error .inconsistentPin := by
  intro l
  induction l with
  | nil =>
    intro acc res _
    simp [fromDigitalLoop]
  | cons e rest ih =>
    intro acc res h
    have he : ¬ (e.mode = active) := by
      intro hc
      rw [List.countP_cons, decide_eq_true hc, if_pos rfl] at h
      omega
    have hrest : rest.countP (fun x => decide (x.mode = active)) = 0 := by
      rw [List.countP_cons, decide_eq_false he, if_neg Bool.false_ne_true] at h
      omega
    cases hm : PinMode.fromRaw e.mode with
    | none => simp [fromDigitalLoop, he, hm]
    | some m =>
      simp only [fromDigitalLoop, he, if_false, hm]
      exact ih (acc ++ [m]) res hrest

lemma fromDigitalLoop_count_le_one (active : Nat) :
    ∀ (l : List FirmataModeEntry) (acc : List PinMode),
    l.countP (fun x => decide (x.mode = active)) ≤ 1 →
    fromDigitalLoop active l acc none ≠ .error .inconsistentPin := by
  intro l
  induction l with
  | nil =>
    intro acc _
    simp [fromDigitalLoop]
  | cons e rest ih =>
    intro acc h
    by_cases he : e.mode = active
    · have hrest : rest.countP (fun x => decide (x.mode = active)) = 0 := by
        rw [List.countP_cons, decide_eq_true he, if_pos rfl] at h
        omega
      rw [← he] at *
      cases hm : PinMode.fromRaw e.mode with
      | none => simp [fromDigitalLoop, hm]
      | some m =>
        rw [fromDigitalLoop_step_active_none e.mode e rest acc m rfl hm]
        exact fromDigitalLoop_count_zero e.mode rest (acc ++ [m]) (some e.resolution) hrest
    · have hrest : rest.countP (fun x => decide (x.mode = active)) ≤ 1 := by
        rw [List.countP_cons, decide_eq_false he, if_neg Bool.false_ne_true] at h
        omega
      cases hm : PinMode.fromRaw e.mode with
      | none => simp [fromDigitalLoop, he, hm]
      | some m =>
        simp only [fromDigitalLoop, he, if_false, hm]
        exact ih (acc ++ [m]) hrest

lemma exists_first_split {α : Type} (p : α → Bool) :
    ∀ l : List α, 0 < l.countP p →
    ∃ xs e ys, l = xs ++ e :: ys ∧ p e = true ∧ ∀ x ∈ xs, p x = false := by
  intro l
  induction l with
  | nil => intro h; simp [List.countP_nil] at h
  | cons a rest ih =>
    intro h
    by_cases hp : p a
    · exact ⟨[], a, rest, by simp, hp, by simp⟩
    · have hr : 0 < rest.countP p := by
        simpa [List.countP_cons, hp] using h
      obtain ⟨xs, e, ys, h1, h2, h3⟩ := ih hr
      refine ⟨a :: xs, e, ys, by simp [h1], h2, ?_⟩
      intro x hx
      rcases List.mem_cons.mp hx with h | h
      · subst h
        simpa using hp
      · exact h3 x h

/-- C3: for a pin descriptor whose supported sequence contains the active mode
exactly once (and whose mode codes are all recognizable, as `PinMode::from`
otherwise panics), the constructed snapshot's `valid_modes` are exactly the
modes of the sequence in order, duplicates of non-active modes preserved, and
its `bit_resolution` is the resolution paired with the active mode; for an
empty supported sequence, `bit_resolution` is `0` and `valid_modes` is empty. -/
theorem C3_snapshot_construction (p : FirmataPin) (m : PinMode)
    (hm : PinMode.fromRaw p.mode = some m) :
    (p.modes = [] →
      DigitalPin.from_digital p =
        .ok { mode := m, bit_resolution := 0, valid_modes := [] }) ∧
    (∀ xs e ys, p.modes = xs ++ e :: ys → e.mode = p.mode →
      (∀ x ∈ xs, x.mode ≠ p.mode) → (∀ y ∈ ys, y.mode ≠ p.mode) →
      (∀ x ∈ p.modes, (PinMode.fromRaw x.mode).isSome) →
      ∃ vm,
        DigitalPin.from_digital p =
          .ok { mode := m, bit_resolution := e.resolution, valid_modes := vm } ∧
        vm.map some = p.modes.map (fun x => PinMode.fromRaw x.mode)) := by
  constructor
  · intro h
    simp [DigitalPin.from_digital, hm, h, fromDigitalLoop]
  · intro xs e ys hsplit he hxs hys hv
    have hvxs : ∀ x ∈ xs, (PinMode.fromRaw x.mode).isSome :=
      fun x hx => hv x (by simp [hsplit, hx])
    have hvys : ∀ y ∈ ys, (PinMode.fromRaw y.mode).isSome :=
      fun y hy => hv y (by simp [hsplit, hy])
    obtain ⟨ms₁, h1, h1m⟩ := fromDigitalLoop_clean p.mode xs (e :: ys) [] none hxs hvxs
    obtain ⟨ms₂, h2, h2m⟩ :=
      fromDigitalLoop_clean p.mode ys [] ((([] : List PinMode) ++ ms₁) ++ [m])
        (some e.resolution) hys hvys
    rw [List.append_nil] at h2
    have hloop : fromDigitalLoop p.mode p.modes [] none =
        .ok (((([] : List PinMode) ++ ms₁) ++ [m]) ++ ms₂, some e.resolution) := by
      rw [hsplit, h1, fromDigitalLoop_step_active_none p.mode e ys _ m he hm, h2]
      rfl
    have hne : ((((([] : List PinMode) ++ ms₁) ++ [m]) ++ ms₂).isEmpty) = false := by
      simp
    refine ⟨(((([] : List PinMode) ++ ms₁) ++ [m]) ++ ms₂), ?_, ?_⟩
    · simp only [DigitalPin.from_digital, hm, hloop, hne, if_false]
      rfl
    · rw [hsplit]
      simp only [List.map_append, List.map_cons, List.nil_append, List.map_nil]
      rw [← h1m, ← h2m, he, hm]
      simp

/-- C7 counterexample: the claim says construction fails hard only when the
active mode occurs more than once WITH DIFFERING resolutions, but the code
panics at the second occurrence without ever comparing resolutions. In this
descriptor the active mode `1` occurs twice with the SAME resolution `5`, and
construction still hits the internal-inconsistency panic. -/
theorem C7_counterexample :
    DigitalPin.from_digital
        { analog := false, mode := 1,
          modes := [{ mode := 1, resolution := 5 }, { mode := 1, resolution := 5 }] } =
      .error .inconsistentPin := rfl

/-- C7 (amended): snapshot construction hits the internal-inconsistency panic
iff the supported sequence contains the active mode more than once — whether
or not the two resolutions differ (for all mode codes recognizable; an
unrecognizable code panics earlier, in `PinMode::from`). With at most one
occurrence, construction never fails for this reason. -/
theorem C7_duplicate_active_mode (p : FirmataPin)
    (hm : (PinMode.fromRaw p.mode).isSome)
    (hv : ∀ x ∈ p.modes, (PinMode.fromRaw x.mode).isSome) :
    DigitalPin.from_digital p = .error .inconsistentPin ↔
      2 ≤ p.modes.countP (fun x => decide (x.mode = p.mode)) := by
  obtain ⟨m, hm'⟩ := Option.isSome_iff_exists.mp hm
  constructor
  · intro h
    by_contra hc
    have hle : p.modes.countP (fun x => decide (x.mode = p.mode)) ≤ 1 := by omega
    have hne := fromDigitalLoop_count_le_one p.mode p.modes [] hle
    simp only [DigitalPin.from_digital, hm'] at h
    split at h
    · rename_i k heq
      cases h
      exact hne heq
    · rename_i vm res heq
      split at h
      · exact Except.noConfusion h
      · simp at h
  · intro h2
    obtain ⟨xs, e, ys, hsplit, hpe, hxs⟩ :=
      exists_first_split (fun x => decide (x.mode = p.mode)) p.modes (by omega)
    have he : e.mode = p.mode := of_decide_eq_true hpe
    have hxs' : ∀ x ∈ xs, x.mode ≠ p.mode :=
      fun x hx => of_decide_eq_false (hxs x hx)
    have hys : 0 < ys.countP (fun x => decide (x.mode = p.mode)) := by
      rw [hsplit, List.countP_append, List.countP_cons, hpe, if_pos rfl] at h2
      have h0 : xs.countP (fun x => decide (x.mode = p.mode)) = 0 :=
        List.countP_eq_zero.mpr (fun a ha => by simp [hxs a ha])
      omega
    obtain ⟨xs', e', ys', hsplit', hpe', hxs2⟩ :=
      exists_first_split (fun x => decide (x.mode = p.mode)) ys hys
    have he' : e'.mode = p.mode := of_decide_eq_true hpe'
    have hxs2' : ∀ x ∈ xs', x.mode ≠ p.mode :=
      fun x hx => of_decide_eq_false (hxs2 x hx)
    have hvxs : ∀ x ∈ xs, (PinMode.fromRaw x.mode).isSome :=
      fun x hx => hv x (by simp [hsplit, hx])
    have hvxs' : ∀ x ∈ xs', (PinMode.fromRaw x.mode).isSome :=
      fun x hx => hv x (by simp [hsplit, hsplit', hx])
    obtain ⟨ms₁, h1, _⟩ := fromDigitalLoop_clean p.mode xs (e :: ys) [] none hxs' hvxs
    obtain ⟨ms₂, h2', _⟩ :=
      fromDigitalLoop_clean p.mode xs' (e' :: ys') ((([] : List PinMode) ++ ms₁) ++ [m])
        (some e.resolution) hxs2' hvxs'
    rw [DigitalPin.from_digital, hm', hsplit, h1,
      fromDigitalLoop_step_active_none p.mode e ys _ m he hm', hsplit', h2',
      fromDigitalLoop_step_active_some p.mode e' ys' _ e.resolution he']

/-- C9: snapshot construction panics on a descriptor whose supported sequence
is non-empty but never contains the active mode: the bit resolution is then
never set and the final `expect`-style unwrap fails (mode codes assumed
recognizable, as `PinMode::from` otherwise panics earlier). -/
theorem C9_missing_active_mode (p : FirmataPin) (m : PinMode)
    (hm : PinMode.fromRaw p.mode = some m)
    (hv : ∀ x ∈ p.modes, (PinMode.fromRaw x.mode).isSome)
    (hne : p.modes ≠ [])
    (hno : ∀ x ∈ p.modes, x.mode ≠ p.mode) :
    DigitalPin.from_digital p = .error .missingResolution := by
  obtain ⟨ms, h1, h1m⟩ :=
    fromDigitalLoop_clean p.mode p.modes [] [] none hno hv
  rw [List.append_nil] at h1
  have hlen : ms.length = p.modes.length := by
    have := congrArg List.length h1m
    simpa using this
  have hmsne : ms.isEmpty = false := by
    cases ms with
    | nil =>
      exfalso
      apply hne
      cases hp : p.modes with
      | nil => rfl
      | cons a l => rw [hp] at hlen; simp at hlen
    | cons a l => rfl
  rw [DigitalPin.from_digital, hm, h1]
  simp only [fromDigitalLoop, List.nil_append, hmsne, if_false]
  rfl

/-- Witness for C3 at a concrete descriptor: active raw mode `1`, supported
sequence `[(0,1), (1,8), (3,8)]` containing the active mode exactly once. -/
theorem C3_snapshot_construction_witness :
    ∃ vm,
      DigitalPin.from_digital
          { analog := false, mode := 1,
            modes := [{ mode := 0, resolution := 1 }, { mode := 1, resolution := 8 },
                      { mode := 3, resolution := 8 }] } =
        .ok { mode := PinMode.DigitalOutput, bit_resolution := 8, valid_modes := vm } ∧
      vm.map some =
        [{ mode := 0, resolution := 1 }, { mode := 1, resolution := 8 },
         { mode := 3, resolution := 8 }].map
          (fun x : FirmataModeEntry => PinMode.fromRaw x.mode) :=
  (C3_snapshot_construction
      { analog := false, mode := 1,
        modes := [{ mode := 0, resolution := 1 }, { mode := 1, resolution := 8 },
                  { mode := 3, resolution := 8 }] }
      PinMode.DigitalOutput rfl).2
    [{ mode := 0, resolution := 1 }] { mode := 1, resolution := 8 }
    [{ mode := 3, resolution := 8 }] rfl rfl (by decide) (by decide) (by decide)

/-- Witness for C7 (amended) at a concrete descriptor with the active mode
occurring twice under differing resolutions. -/
theorem C7_duplicate_active_mode_witness :
    DigitalPin.from_digital
        { analog := false, mode := 1,
          modes := [{ mode := 1, resolution := 5 }, { mode := 1, resolution := 6 }] } =
      .error .inconsistentPin :=
  (C7_duplicate_active_mode
      { analog := false, mode := 1,
        modes := [{ mode := 1, resolution := 5 }, { mode := 1, resolution := 6 }] }
      (by decide) (by decide)).mpr (by decide)

/-! ### Lemmas about `Arduino.write` and `Arduino.set_pin_mode` -/

lemma i32AsUsize_nonneg (i : Int) (h0 : 0 ≤ i) (hlt : i < (2 : Int) ^ 31) :
    i32AsUsize i = i.toNat := by
  unfold i32AsUsize
  have e64 : (2 : Int) ^ 64 = 18446744073709551616 := by norm_num
  have e31 : (2 : Int) ^ 31 = 2147483648 := by norm_num
  rw [e64]
  rw [e31] at hlt
  omega

lemma i32AsUsize_neg (i : Int) (hlo : -((2 : Int) ^ 31) ≤ i) (hneg : i < 0) :
    18446744071562067968 ≤ i32AsUsize i := by
  unfold i32AsUsize
  have e64 : (2 : Int) ^ 64 = 18446744073709551616 := by norm_num
  have e31 : (2 : Int) ^ 31 = 2147483648 := by norm_num
  rw [e64]
  rw [e31] at hlo
  omega

lemma get_out_of_range {T : Type} (a : Arduino T) (i : Int)
    (hlo : -((2 : Int) ^ 31) ≤ i) (hhi : i < (2 : Int) ^ 31)
    (hlen : a.digital_pins.length < 2 ^ 63)
    (h : ¬ (0 ≤ i ∧ i.toNat < a.digital_pins.length)) :
    a.digital_pins.get? (i32AsUsize i) = none := by
  have e63 : (2 : Nat) ^ 63 = 9223372036854775808 := by norm_num
  rw [e63] at hlen
  rw [List.get?_eq_none]
  by_cases h0 : 0 ≤ i
  · rw [i32AsUsize_nonneg i h0 hhi]
    omega
  · have := i32AsUsize_neg i hlo (by omega)
    omega

lemma afterDispatch_ne_err {T : Type} (tr : Transport T) (b : T) (e : Error)
    (s : Arduino T) : afterDispatch tr b ≠ .err e s := by
  unfold afterDispatch
  cases Arduino.digital_pins_for_board tr b <;> simp

lemma write_in_range {T : Type} (tr : Transport T) (a : Arduino T) (i v : Int)
    (pin : DigitalPin) (h0 : 0 ≤ i) (hhi : i < (2 : Int) ^ 31)
    (hget : a.digital_pins.get? i.toNat = some pin) (hr : pin.bit_resolution ≤ 30) :
    Arduino.write tr a i v =
      (if 0 ≤ v ∧ v < (2 : Int) ^ pin.bit_resolution then
        match pin.mode with
        | .DigitalOutput => afterDispatch tr (tr.digital_write a.board i v)
        | .Pwm => afterDispatch tr (tr.analog_write a.board i v)
        | _ => .err .Unimplemented a
      else .err .ValueOutOfBounds a) := by
  have hvv : pin.valid_values = some (0, (2 : Int) ^ pin.bit_resolution) := by
    unfold DigitalPin.valid_values pow2i32
    rw [if_pos]
    · rfl
    · calc (2 : Int) ^ pin.bit_resolution ≤ (2 : Int) ^ 30 :=
            pow_le_pow_right₀ (by norm_num) hr
        _ ≤ i32Max := by norm_num [i32Max]
  simp only [Arduino.write, i32AsUsize_nonneg i h0 hhi, hget, hvv]
  by_cases hv : 0 ≤ v ∧ v < (2 : Int) ^ pin.bit_resolution
  · rw [if_pos hv, if_pos (by simp [rangeContains, hv.1, hv.2])]
  · rw [if_neg hv, if_neg (by simpa [rangeContains] using hv)]

/-- C1 counterexample: the claim quantifies over every board state, but on a
board state holding a pin with `bit_resolution = 31` the `i32` range
computation `2i32.pow(31)` overflows and `write` panics, where the claim
demands the `Unimplemented` error (the pin index is in range, the value `5`
lies in `[0, 2^31)`, and the active mode `Servo` is neither digital-output
nor pwm). -/
theorem C1_write_counterexample :
    ((0 : Int).toNat <
      ([{ mode := .Servo, bit_resolution := 31, valid_modes := [.Servo] }] :
        List DigitalPin).length) ∧
    (0 ≤ (5 : Int) ∧ (5 : Int) < 2 ^ 31) ∧
    DigitalPin.mode { mode := .Servo, bit_resolution := 31, valid_modes := [.Servo] } ≠
      .DigitalOutput ∧
    DigitalPin.mode { mode := .Servo, bit_resolution := 31, valid_modes := [.Servo] } ≠
      .Pwm ∧
    Arduino.write trivialTransport
        { board := (), digital_pins :=
            [{ mode := .Servo, bit_resolution := 31, valid_modes := [.Servo] }] }
        0 5 = .panicked ∧
    Arduino.write trivialTransport
        { board := (), digital_pins :=
            [{ mode := .Servo, bit_resolution := 31, valid_modes := [.Servo] }] }
        0 5 ≠
      .err .Unimplemented
        { board := (), digital_pins :=
            [{ mode := .Servo, bit_resolution := 31, valid_modes := [.Servo] }] } := by
  refine ⟨by decide, by decide, by decide, by decide, rfl, by decide⟩

/-- C1 (amended): as the claim states, but with the value-validation clauses
restricted to pins whose `bit_resolution` is at most 30, since for a larger
resolution the `i32` range computation overflows and `write` panics instead of
returning (the out-of-range-index clause is unaffected). Out-of-range indices
(including all negative ones, which the `as usize` cast wraps far past any
representable vector length) give `InvalidPinIndex` from both `write` and
`set_pin_mode`; for an in-range pin with resolution at most 30, `write`
returns `ValueOutOfBounds` iff the value is outside `[0, 2^bit_resolution)`
(in particular at the boundary value `2^bit_resolution`), and on a valid value
digital-output dispatches a digital write, pwm an analog write, and every
other active mode yields `Unimplemented`. -/
theorem C1_write_validation {T : Type} (tr : Transport T) (a : Arduino T) (i v : Int)
    (hlo : -((2 : Int) ^ 31) ≤ i) (hhi : i < (2 : Int) ^ 31)
    (hlen : a.digital_pins.length < 2 ^ 63) :
    (¬ (0 ≤ i ∧ i.toNat < a.digital_pins.length) →
      Arduino.write tr a i v = .err .InvalidPinIndex a ∧
      (∀ m : PinMode, Arduino.set_pin_mode tr a i m = .err .InvalidPinIndex a)) ∧
    (∀ pin : DigitalPin, 0 ≤ i → a.digital_pins.get? i.toNat = some pin →
      pin.bit_resolution ≤ 30 →
      ((Arduino.write tr a i v = .err .ValueOutOfBounds a) ↔
        ¬ (0 ≤ v ∧ v < (2 : Int) ^ pin.bit_resolution)) ∧
      (Arduino.write tr a i ((2 : Int) ^ pin.bit_resolution) =
        .err .ValueOutOfBounds a) ∧
      (0 ≤ v → v < (2 : Int) ^ pin.bit_resolution →
        (pin.mode = .DigitalOutput →
          Arduino.write tr a i v = afterDispatch tr (tr.digital_write a.board i v)) ∧
        (pin.mode = .Pwm →
          Arduino.write tr a i v = afterDispatch tr (tr.analog_write a.board i v)) ∧
        (pin.mode ≠ .DigitalOutput → pin.mode ≠ .Pwm →
          Arduino.write tr a i v = .err .Unimplemented a))) := by
  constructor
  · intro h
    have hnone := get_out_of_range a i hlo hhi hlen h
    constructor
    · simp only [Arduino.write, hnone]
    · intro m
      simp only [Arduino.set_pin_mode, hnone]
  · intro pin h0 hget hr
    have hw := write_in_range tr a i v pin h0 hhi hget hr
    have hw2 := write_in_range tr a i ((2 : Int) ^ pin.bit_resolution) pin h0 hhi hget hr
    refine ⟨?_, ?_, ?_⟩
    · rw [hw]
      by_cases hv : 0 ≤ v ∧ v < (2 : Int) ^ pin.bit_resolution
      · rw [if_pos hv]
        have hne : (match pin.mode with
            | .DigitalOutput => afterDispatch tr (tr.digital_write a.board i v)
            | .Pwm => afterDispatch tr (tr.analog_write a.board i v)
            | _ => .err .Unimplemented a) ≠ .err .ValueOutOfBounds a := by
          cases pin.mode <;> first | exact afterDispatch_ne_err _ _ _ _ | simp
        exact iff_of_false hne (not_not_intro hv)
      · rw [if_neg hv]
        exact iff_of_true rfl hv
    · rw [hw2, if_neg (fun hc => absurd hc.2 (lt_irrefl _))]
    · intro hv0 hv1
      rw [hw, if_pos ⟨hv0, hv1⟩]
      refine ⟨?_, ?_, ?_⟩
      · intro hpm
        rw [hpm]
      · intro hpm
        rw [hpm]
      · intro h1 h2
        cases hpm : pin.mode <;>
          first | rfl | exact absurd hpm h1 | exact absurd hpm h2

/-- Witness for C1 (amended): a concrete board with one servo-mode pin of
resolution 8 on the trivial transport; `write 0 5` yields `Unimplemented`. -/
theorem C1_write_validation_witness :
    Arduino.write trivialTransport
        { board := (), digital_pins :=
            [{ mode := .Servo, bit_resolution := 8, valid_modes := [.Servo] }] }
        0 5 =
      .err .Unimplemented
        { board := (), digital_pins :=
            [{ mode := .Servo, bit_resolution := 8, valid_modes := [.Servo] }] } := by
  have h := (C1_write_validation trivialTransport
      { board := (), digital_pins :=
          [{ mode := .Servo, bit_resolution := 8, valid_modes := [.Servo] }] }
      0 5 (by decide) (by decide) (by decide)).2
    { mode := .Servo, bit_resolution := 8, valid_modes := [.Servo] }
    (by decide) rfl (by decide)
  exact (h.2.2 (by decide) (by decide)).2.2 (by decide) (by decide)

/-- C2: for an in-range pin, `set_pin_mode` succeeds iff the requested mode is
in the pin's supported mode list (under the environment assumption that the
transport always reports well-formed pin descriptors, so the post-dispatch
snapshot rebuild completes); when the mode is not supported, the result is
`InvalidMode` with the receiver — snapshot collection and transport state
alike — unchanged, so repeating the rejected call reproduces the same error
and the transport is never touched by the failed validation. -/
theorem C2_set_pin_mode {T : Type} (tr : Transport T)
    (htr : ∀ b : T, ∃ pins, Arduino.digital_pins_for_board tr b = .ok pins)
    (a : Arduino T) (i : Int) (m : PinMode) (pin : DigitalPin)
    (h0 : 0 ≤ i) (hhi : i < (2 : Int) ^ 31)
    (hget : a.digital_pins.get? i.toNat = some pin) :
    ((∃ a', Arduino.set_pin_mode tr a i m = .ok a') ↔ m ∈ pin.valid_modes) ∧
    (m ∉ pin.valid_modes →
      Arduino.set_pin_mode tr a i m = .err .InvalidMode a) := by
  have hstep : Arduino.set_pin_mode tr a i m =
      (if pin.valid_modes.contains m then
        afterDispatch tr (tr.set_pin_mode a.board i m.toRaw)
      else .err .InvalidMode a) := by
    simp only [Arduino.set_pin_mode, i32AsUsize_nonneg i h0 hhi, hget]
  constructor
  · rw [hstep]
    by_cases hmem : m ∈ pin.valid_modes
    · rw [if_pos (List.elem_iff.mpr hmem)]
      obtain ⟨pins, hp⟩ := htr (tr.set_pin_mode a.board i m.toRaw)
      refine ⟨fun _ => hmem, fun _ =>
        ⟨{ board := tr.set_pin_mode a.board i m.toRaw, digital_pins := pins }, ?_⟩⟩
      simp [afterDispatch, hp]
    · rw [if_neg (fun hc => hmem (List.elem_iff.mp hc))]
      constructor
      · rintro ⟨a', ha'⟩
        exact StepResult.noConfusion ha'
      · intro hmem'
        exact absurd hmem' hmem
  · intro hmem
    rw [hstep, if_neg (fun hc => hmem (List.elem_iff.mp hc))]

/-- Witness for C2: a concrete board with one digital-output pin; requesting
the unsupported servo mode yields `InvalidMode` and leaves the state intact. -/
theorem C2_set_pin_mode_witness :
    Arduino.set_pin_mode trivialTransport
        { board := (), digital_pins :=
            [{ mode := .DigitalOutput, bit_resolution := 1,
               valid_modes := [.DigitalOutput] }] }
        0 .Servo =
      .err .InvalidMode
        { board := (), digital_pins :=
            [{ mode := .DigitalOutput, bit_resolution := 1,
               valid_modes := [.DigitalOutput] }] } :=
  (C2_set_pin_mode trivialTransport (fun b => ⟨[], rfl⟩)
      { board := (), digital_pins :=
          [{ mode := .DigitalOutput, bit_resolution := 1,
             valid_modes := [.DigitalOutput] }] }
      0 .Servo
      { mode := .DigitalOutput, bit_resolution := 1, valid_modes := [.DigitalOutput] }
      (by decide) (by decide) rfl).2 (by decide)

/-- C8: the legal-value range `valid_values` computes `2^bit_resolution` in
`i32` arithmetic, so it is defined exactly when `bit_resolution ≤ 30`; for any
in-range pin with `bit_resolution ≥ 31` the exponentiation overflows and
`write` panics on every value, making `write` and `valid_values` total only
under the precondition `bit_resolution ≤ 30`. -/
theorem C8_pow_overflow :
    (∀ pin : DigitalPin, pin.valid_values.isSome = true ↔ pin.bit_resolution ≤ 30) ∧
    (∀ (T : Type) (tr : Transport T) (a : Arduino T) (i v : Int) (pin : DigitalPin),
      0 ≤ i → i < (2 : Int) ^ 31 → a.digital_pins.get? i.toNat = some pin →
      31 ≤ pin.bit_resolution → Arduino.write tr a i v = .panicked) := by
  constructor
  · intro pin
    unfold DigitalPin.valid_values pow2i32
    by_cases h : pin.bit_resolution ≤ 30
    · have hle : (2 : Int) ^ pin.bit_resolution ≤ i32Max := by
        calc (2 : Int) ^ pin.bit_resolution ≤ (2 : Int) ^ 30 :=
              pow_le_pow_right₀ (by norm_num) h
          _ ≤ i32Max := by norm_num [i32Max]
      simp [hle, h]
    · have hgt : ¬ ((2 : Int) ^ pin.bit_resolution ≤ i32Max) := by
        push_neg
        calc i32Max < (2 : Int) ^ 31 := by norm_num [i32Max]
          _ ≤ (2 : Int) ^ pin.bit_resolution :=
              pow_le_pow_right₀ (by norm_num) (by omega)
      simp [hgt, h]
  · intro T tr a i v pin h0 hhi hget hr
    have hvv : pin.valid_values = none := by
      unfold DigitalPin.valid_values pow2i32
      rw [if_neg]
      · rfl
      · push_neg
        calc i32Max < (2 : Int) ^ 31 := by norm_num [i32Max]
          _ ≤ (2 : Int) ^ pin.bit_resolution :=
              pow_le_pow_right₀ (by norm_num) hr
    simp only [Arduino.write, i32AsUsize_nonneg i h0 hhi, hget, hvv]

/-- Witness for C8: a concrete pwm pin with resolution 31 makes `write`
panic. -/
theorem C8_pow_overflow_witness :
    Arduino.write trivialTransport
        { board := (), digital_pins :=
            [{ mode := .Pwm, bit_resolution := 31, valid_modes := [.Pwm] }] }
        0 0 = .panicked :=
  C8_pow_overflow.2 Unit trivialTransport
    { board := (), digital_pins :=
        [{ mode := .Pwm, bit_resolution := 31, valid_modes := [.Pwm] }] }
    0 0 { mode := .Pwm, bit_resolution := 31, valid_modes := [.Pwm] }
    (by decide) (by decide) rfl (by decide)

/-- Witness for C9 at a concrete descriptor: non-empty supported sequence that
never mentions the active mode. -/
theorem C9_missing_active_mode_witness :
    DigitalPin.from_digital
        { analog := false, mode := 1, modes := [{ mode := 0, resolution := 1 }] } =
      .error .missingResolution :=
  C9_missing_active_mode
    { analog := false, mode := 1, modes := [{ mode := 0, resolution := 1 }] }
    PinMode.DigitalOutput rfl (by decide) (by decide) (by decide)

/-! ### Lemmas about the tabular discovery path -/

lemma findBoardEntry_nil_filter (lines : List (List Char)) :
    ∀ acc, lines.filter (fun l => !Cli.isBlankLine l) = [] →
    Cli.findBoardEntry lines acc = .ok acc := by
  induction lines with
  | nil => intro acc _; rfl
  | cons l rest ih =>
    intro acc h
    rw [List.filter_cons] at h
    by_cases hb : Cli.isBlankLine l
    · have hstep : Cli.findBoardEntry (l :: rest) acc = Cli.findBoardEntry rest acc := by
        simp [Cli.findBoardEntry, hb]
      rw [hstep]
      exact ih acc (by simpa [hb] using h)
    · exfalso
      simp [hb] at h

lemma findBoardEntry_some_nonempty (lines : List (List Char)) :
    ∀ e c rest, lines.filter (fun l => !Cli.isBlankLine l) = c :: rest →
    Cli.findBoardEntry lines (some e) = .error .MultipleDevices := by
  induction lines with
  | nil => intro e c rest h; simp at h
  | cons l tl ih =>
    intro e c rest h
    rw [List.filter_cons] at h
    by_cases hb : Cli.isBlankLine l
    · have hstep : Cli.findBoardEntry (l :: tl) (some e) =
          Cli.findBoardEntry tl (some e) := by
        simp [Cli.findBoardEntry, hb]
      rw [hstep]
      exact ih e c rest (by simpa [hb] using h)
    · simp [Cli.findBoardEntry, hb]

lemma findBoardEntry_single (lines : List (List Char)) :
    ∀ c, lines.filter (fun l => !Cli.isBlankLine l) = [c] →
    Cli.findBoardEntry lines none = .ok (some c) := by
  induction lines with
  | nil => intro c h; simp at h
  | cons l rest ih =>
    intro c h
    rw [List.filter_cons] at h
    by_cases hb : Cli.isBlankLine l
    · have hstep : Cli.findBoardEntry (l :: rest) none = Cli.findBoardEntry rest none := by
        simp [Cli.findBoardEntry, hb]
      rw [hstep]
      exact ih c (by simpa [hb] using h)
    · have hstep : Cli.findBoardEntry (l :: rest) none =
          Cli.findBoardEntry rest (some l) := by
        simp [Cli.findBoardEntry, hb]
      rw [if_pos (by simpa using hb)] at h
      have hl : l = c ∧ rest.filter (fun l => !Cli.isBlankLine l) = [] := by
        have := List.cons.injEq l (rest.filter (fun l => !Cli.isBlankLine l)) c []
        rw [this] at h
        exact h
      rw [hstep, hl.1]
      exact findBoardEntry_nil_filter rest (some c) hl.2

lemma findBoardEntry_multi (lines : List (List Char)) :
    ∀ c₁ c₂ rest, lines.filter (fun l => !Cli.isBlankLine l) = c₁ :: c₂ :: rest →
    Cli.findBoardEntry lines none = .error .MultipleDevices := by
  induction lines with
  | nil => intro c₁ c₂ rest h; simp at h
  | cons l tl ih =>
    intro c₁ c₂ rest h
    rw [List.filter_cons] at h
    by_cases hb : Cli.isBlankLine l
    · have hstep : Cli.findBoardEntry (l :: tl) none = Cli.findBoardEntry tl none := by
        simp [Cli.findBoardEntry, hb]
      rw [hstep]
      exact ih c₁ c₂ rest (by simpa [hb] using h)
    · have hstep : Cli.findBoardEntry (l :: tl) none =
          Cli.findBoardEntry tl (some l) := by
        simp [Cli.findBoardEntry, hb]
      rw [if_pos (by simpa using hb)] at h
      have htl : tl.filter (fun l => !Cli.isBlankLine l) = c₂ :: rest := by
        have := List.cons.injEq l (tl.filter (fun l => !Cli.isBlankLine l)) c₁ (c₂ :: rest)
        rw [this] at h
        exact h.2
      rw [hstep]
      exact findBoardEntry_some_nonempty tl l c₂ rest htl

/-- C4: classification of a tabular listing. With the candidate lines being
the non-blank lines after the header: zero candidates yield `NoDevice`, two
or more yield `MultipleDevices`; a single candidate yields `UnexpectedSyntax`
unless it splits into exactly 4 tab-separated fields, `MissingCore` when its
FQBN field (column 0) is empty or whitespace-only, and otherwise succeeds with
the field in the queried column (Fqbn 0, Port 1, Id 2, BoardName 3). -/
theorem C4_tabular_classification (q : Cli.Query) (s : List Char) :
    (Cli.candidateLines s = [] →
      Cli.query_from_board_list q s = .error .NoDevice) ∧
    (∀ c₁ c₂ rest, Cli.candidateLines s = c₁ :: c₂ :: rest →
      Cli.query_from_board_list q s = .error .MultipleDevices) ∧
    (∀ c, Cli.candidateLines s = [c] →
      ((Cli.splitOnChar '\t' c).length ≠ 4 →
        Cli.query_from_board_list q s = .error .UnexpectedSyntax) ∧
      ((Cli.splitOnChar '\t' c).length = 4 →
        Cli.isBlankLine ((Cli.splitOnChar '\t' c).getD 0 []) = true →
        Cli.query_from_board_list q s = .error .MissingCore) ∧
      ((Cli.splitOnChar '\t' c).length = 4 →
        Cli.isBlankLine ((Cli.splitOnChar '\t' c).getD 0 []) = false →
        Cli.query_from_board_list q s =
          .ok ((Cli.splitOnChar '\t' c).getD q.column []))) := by
  refine ⟨?_, ?_, ?_⟩
  · intro h
    unfold Cli.candidateLines at h
    unfold Cli.query_from_board_list
    rw [findBoardEntry_nil_filter _ none h]
  · intro c₁ c₂ rest h
    unfold Cli.candidateLines at h
    unfold Cli.query_from_board_list
    rw [findBoardEntry_multi _ c₁ c₂ rest h]
  · intro c h
    unfold Cli.candidateLines at h
    have hq : Cli.query_from_board_list q s = Cli.query_from_board_entry q c := by
      unfold Cli.query_from_board_list
      rw [findBoardEntry_single _ c h]
    refine ⟨?_, ?_, ?_⟩
    · intro hlen
      rw [hq]
      unfold Cli.query_from_board_entry
      rw [if_pos hlen]
    · intro hlen hblank
      rw [hq]
      unfold Cli.query_from_board_entry
      rw [if_neg (by omega), if_pos hblank]
    · intro hlen hblank
      rw [hq]
      unfold Cli.query_from_board_entry
      rw [if_neg (by omega),
        if_neg (by intro hc; rw [hc] at hblank; exact Bool.noConfusion hblank)]

/-- Witness for C4: the success branch on a concrete listing with one
well-formed candidate, querying the port column. -/
theorem C4_tabular_classification_witness :
    Cli.query_from_board_list .Port
        "FQBN\tPort\tID\tBoard Name\n1\tXYZ\t3\t4\n\t\n".toList = .ok "XYZ".toList :=
  ((C4_tabular_classification .Port
      "FQBN\tPort\tID\tBoard Name\n1\tXYZ\t3\t4\n\t\n".toList).2.2
    "1\tXYZ\t3\t4".toList (by decide)).2.2 (by decide) (by decide)

/-- C10: for a listing with a single candidate of exactly 4 tab-separated
fields whose FQBN field is empty or whitespace-only, every query variant —
including Port, Id and BoardName, whose own field may be present and
non-empty — returns `MissingCore`, so no field of a core-less board is ever
extractable. -/
theorem C10_missing_core_precedence (q : Cli.Query) (s : List Char) (c : List Char)
    (hc : Cli.candidateLines s = [c])
    (hlen : (Cli.splitOnChar '\t' c).length = 4)
    (hblank : Cli.isBlankLine ((Cli.splitOnChar '\t' c).getD 0 []) = true) :
    Cli.query_from_board_list q s = .error .MissingCore := by
  unfold Cli.candidateLines at hc
  have hq : Cli.query_from_board_list q s = Cli.query_from_board_entry q c := by
    unfold Cli.query_from_board_list
    rw [findBoardEntry_single _ c hc]
  rw [hq]
  unfold Cli.query_from_board_entry
  rw [if_neg (by omega), if_pos hblank]

/-- Witness for C10: a concrete listing whose single candidate has a blank
FQBN field but a non-empty port field; the port query still fails with
`MissingCore`. -/
theorem C10_missing_core_precedence_witness :
    Cli.query_from_board_list .Port "H\n \tPORT\tID\tNAME".toList =
      .error .MissingCore :=
  C10_missing_core_precedence .Port "H\n \tPORT\tID\tNAME".toList
    " \tPORT\tID\tNAME".toList (by decide) (by decide) (by decide)

/-! ### Lemmas about the structured discovery path -/

lemma decodeBoard_encodeBoard (b : Cli.Board) :
    Cli.decodeBoard (Cli.encodeBoard b) = some b := rfl

lemma decodeDeviceInfo_encodeDeviceInfo (d : Cli.DeviceInfo) :
    Cli.decodeDeviceInfo (Cli.encodeDeviceInfo d) = some d := rfl

lemma mapM_loop_decode_encode {α β : Type} (g : α → β) (f : β → Option α)
    (hfg : ∀ x, f (g x) = some x) (l : List α) :
    ∀ acc : List α, List.mapM.loop f (l.map g) acc = some (acc.reverse ++ l) := by
  induction l with
  | nil => intro acc; simp [List.mapM.loop]
  | cons b rest ih =>
    intro acc
    simp [List.mapM.loop, hfg b, ih (b :: acc)]

lemma mapM_decode_encode_board (l : List Cli.Board) :
    (l.map Cli.encodeBoard).mapM Cli.decodeBoard = some l := by
  unfold List.mapM
  rw [mapM_loop_decode_encode Cli.encodeBoard Cli.decodeBoard decodeBoard_encodeBoard l []]
  simp

lemma mapM_decode_encode_deviceInfo (l : List Cli.DeviceInfo) :
    (l.map Cli.encodeDeviceInfo).mapM Cli.decodeDeviceInfo = some l := by
  unfold List.mapM
  rw [mapM_loop_decode_encode Cli.encodeDeviceInfo Cli.decodeDeviceInfo
    decodeDeviceInfo_encodeDeviceInfo l []]
  simp

lemma getField_serialBoards (x y : Cli.Json) :
    Cli.getField [("serialBoards", x), ("networkBoards", y)] "serialBoards" = some x := rfl

lemma getField_networkBoards (x y : Cli.Json) :
    Cli.getField [("serialBoards", x), ("networkBoards", y)] "networkBoards" = some y := rfl

lemma decode_encode_boardList (bl : Cli.BoardList) :
    Cli.decodeBoardList (Cli.encodeBoardList bl) = some bl := by
  obtain ⟨s, n⟩ := bl
  simp only [Cli.encodeBoardList, Cli.decodeBoardList,
    getField_serialBoards, getField_networkBoards]
  simp [Cli.decodeArr,
    mapM_loop_decode_encode Cli.encodeBoard Cli.decodeBoard decodeBoard_encodeBoard]

lemma decode_encode_infoBoardList (bl : Cli.InfoBoardList) :
    Cli.decodeInfoBoardList (Cli.encodeInfoBoardList bl) = some bl := by
  obtain ⟨s, n⟩ := bl
  simp only [Cli.encodeInfoBoardList, Cli.decodeInfoBoardList,
    getField_serialBoards, getField_networkBoards]
  simp [Cli.decodeArr,
    mapM_loop_decode_encode Cli.encodeDeviceInfo Cli.decodeDeviceInfo
      decodeDeviceInfo_encodeDeviceInfo]

/-- C5: serializing any mix of serial and network device records as the
structured board list and parsing it back yields exactly the serial records,
equal and in order, with the network records silently dropped; and any input
that does not deserialize into the expected container shape — no valid JSON
document at all (such as empty input), or a document that fails shape
decoding (such as a record with missing fields, as in the final concrete
conjunct) — yields `UnknownFormat`. Both duplicated implementations
(`cli::board` and `cli::info`) are covered. -/
theorem C5_structured_roundtrip :
    (∀ serial network : List Cli.Board,
      Cli.boards_from_list (some (Cli.encodeBoardList
        { serialBoards := serial, networkBoards := network })) = .ok serial) ∧
    (∀ serial network : List Cli.DeviceInfo,
      Cli.device_infos_from_board_list (some (Cli.encodeInfoBoardList
        { serialBoards := serial, networkBoards := network })) = .ok serial) ∧
    (Cli.boards_from_list none = .error .UnknownFormat) ∧
    (Cli.device_infos_from_board_list none = .error .UnknownFormat) ∧
    (∀ j, Cli.decodeBoardList j = none →
      Cli.boards_from_list (some j) = .error .UnknownFormat) ∧
    (∀ j, Cli.decodeInfoBoardList j = none →
      Cli.device_infos_from_board_list (some j) = .error .UnknownFormat) ∧
    (Cli.boards_from_list (some (.obj
        [("serialBoards", .arr [.obj [("fqbn", .str "0123")]]),
         ("networkBoards", .arr [])])) = .error .UnknownFormat) := by
  refine ⟨?_, ?_, rfl, rfl, ?_, ?_, rfl⟩
  · intro serial network
    simp [Cli.boards_from_list, decode_encode_boardList]
  · intro serial network
    simp [Cli.device_infos_from_board_list, decode_encode_infoBoardList]
  · intro j h
    simp [Cli.boards_from_list, h]
  · intro j h
    simp [Cli.device_infos_from_board_list, h]

/-- Witness for C5: a concrete two-record round trip (one serial record
surfaced, one network record dropped), and a concrete shape failure (a JSON
array is not the expected container object). -/
theorem C5_structured_roundtrip_witness :
    (Cli.boards_from_list (some (Cli.encodeBoardList
      { serialBoards := [{ name := "A", fqbn := "B", port := "C", usbID := "D" }],
        networkBoards := [{ name := "unknown", fqbn := "", port := "Y", usbID := "Z" }] })) =
      .ok [{ name := "A", fqbn := "B", port := "C", usbID := "D" }]) ∧
    Cli.boards_from_list (some (Cli.Json.arr [])) = .error .UnknownFormat :=
  ⟨C5_structured_roundtrip.1
    [{ name := "A", fqbn := "B", port := "C", usbID := "D" }]
    [{ name := "unknown", fqbn := "", port := "Y", usbID := "Z" }],
   C5_structured_roundtrip.2.2.2.2.1 (Cli.Json.arr []) rfl⟩

/-- C6: a device record is identity-unknown exactly when its name is
`"unknown"` and its FQBN is `""` (the `has_unknown_core` predicate), and for
every sketch path both `compile` and `upload` on such a record return
`CommandFailure` immediately, with an empty interaction trace: no sketch-path
validation and no external process invocation. -/
theorem C6_identity_unknown_fast_fail :
    (∀ d : Cli.DeviceInfo,
      d.has_unknown_core = true ↔ (d.name = "unknown" ∧ d.fqbn = "")) ∧
    (∀ (env : Cli.SysEnv) (sketch : String) (d : Cli.DeviceInfo),
      d.has_unknown_core = true →
      Cli.compile env sketch d = (.error .CommandFailure, []) ∧
      Cli.upload env sketch d = (.error .CommandFailure, [])) := by
  constructor
  · intro d
    simp [Cli.DeviceInfo.has_unknown_core, Cli.DeviceInfo.unknownBoardName,
      Cli.DeviceInfo.unknownBoardFqbn]
  · intro env sketch d h
    constructor
    · simp [Cli.compile, h]
    · simp [Cli.upload, h]

/-- Witness for C6: the spec's own end-to-end scenario, the record
`(name "unknown", fqbn "", port "Y", usbID "Z")`, fails fast on a concrete
environment with an empty interaction trace. -/
theorem C6_identity_unknown_fast_fail_witness :
    Cli.compile { sketch_to_string := fun _ => none, runStatus := fun _ => none } "sk"
        { name := "unknown", fqbn := "", port := "Y", usbID := "Z" } =
      (.error .CommandFailure, []) ∧
    Cli.upload { sketch_to_string := fun _ => none, runStatus := fun _ => none } "sk"
        { name := "unknown", fqbn := "", port := "Y", usbID := "Z" } =
      (.error .CommandFailure, []) :=
  C6_identity_unknown_fast_fail.2
    { sketch_to_string := fun _ => none, runStatus := fun _ => none } "sk"
    { name := "unknown", fqbn := "", port := "Y", usbID := "Z" } (by decide)

end Arduinors
